import Mathlib

/-!
# Verification of the locker-controller protocol engine

Shallow embedding of `src/locker_controller.py` (class `LockerController`).
The Python code works on hex strings where every two hex characters form one
byte; the embedding works directly on byte lists (`List Nat`, each element a
byte value `< 256`), so a hex-string index `2*i` in the source corresponds to
byte index `i` here.  Stateful methods become explicit state passing on a
`Controller` structure; serial writes become a returned list of sent frames.
-/

namespace Locker

/-- `FRAME_HEADER = "FFFF"`: the fixed 2-byte frame header marker. -/
def FRAME_HEADER : List Nat := [0xFF, 0xFF]

/-- `FRAME_END = "FFF7"`: the fixed 2-byte frame trailer marker. -/
def FRAME_END : List Nat := [0xFF, 0xF7]

/-!
## CRC-16

The source builds its CRC function with `mkCrcFun(0x11021, rev=False,
initCrc=0x0000, xorOut=0x0000)` (crcmod), i.e. CRC-16/XMODEM: polynomial
0x1021, MSB-first (no reflection), initial value 0, no final XOR.  That
library call is embedded here as the standard bit-level algorithm it
implements.
-/

/-- One MSB-first shift step of the CRC-16 register with polynomial 0x1021:
shift left one bit, and XOR in the polynomial when the bit shifted out was 1.
The register is kept below 2^16. -/
def crcShift (c : Nat) : Nat :=
  if c &&& 0x8000 ≠ 0 then ((c * 2) ^^^ 0x1021) % 65536
  else (c * 2) % 65536

/-- Feed one input byte into the CRC register: XOR the byte into the top
8 bits, then perform 8 shift steps. -/
def crcByteStep (c b : Nat) : Nat :=
  crcShift^[8] (c ^^^ (b * 256))

/-- `self.crc16_func`: CRC-16/XMODEM of a byte sequence (init 0). -/
def crc16 (data : List Nat) : Nat :=
  data.foldl crcByteStep 0

/-- `_calculate_crc`: compute the CRC over `data` and return the two result
bytes swapped (low byte first), exactly as
`crc_data[2:] + crc_data[:2]` swaps the two hex-character pairs. -/
def calculate_crc (data : List Nat) : List Nat :=
  let c := crc16 data
  [c % 256, c / 256]

/-- `_verify_crc`: a received buffer shorter than 5 bytes (10 hex chars) is
rejected; otherwise recompute the CRC over the buffer minus the 2-byte
header (`received_hex[4:]`) and minus the trailing 2-byte CRC plus 2-byte
trailer (`[:-8]`), and compare with the transmitted CRC bytes
(`received_hex[-8:-4]`). -/
def verify_crc (received : List Nat) : Bool :=
  if received.length < 5 then false
  else
    let core_part := (received.drop 2).take (received.length - 6)
    let received_crc := (received.drop (received.length - 4)).take 2
    received_crc == calculate_crc core_part

/-!
## Temperature codec
-/

/-- `_decode_temperature`: decode one byte (`temp_bin = f'{b:08b}'`):
bit 7 is the sign, bits 6–1 the integer magnitude, bit 0 the half-degree
flag.  Valid for byte values `< 256` (the only values the parser feeds it). -/
def decode_temperature (b : Nat) : ℚ :=
  let sign : ℚ := if b.testBit 7 then -1 else 1
  sign * ((b / 2 % 64 : Nat) + (if b % 2 = 1 then (1 : ℚ) / 2 else 0))

/-- Number of binary digits produced by `f'{n:06b}'`: at least 6, more when
`n ≥ 64` (Python zero-pads to the *minimum* width 6 but never truncates). -/
def binWidth6 (n : Nat) : Nat := max 6 n.size

/-- `_encode_temperature_byte`: the general temperature encoder
(used by `set_system_parameters`).  Builds the bit string
`sign ‖ f'{int(abs(t)):06b}' ‖ half-flag` and returns its value
(`int(temp_bin_str, 2)`); the half flag is set when the fractional part is
`≥ 0.5 - 1e-9`.  Out-of-range inputs only cause a printed warning in the
source, so the function is total and its result can exceed one byte. -/
def encode_temperature_byte (t : ℚ) : Nat :=
  let sign : Nat := if t < 0 then 1 else 0
  let abs_temp := |t|
  let integer_part : Nat := (Int.toNat ⌊abs_temp⌋)
  let fraction : Nat :=
    if abs_temp - ⌊abs_temp⌋ ≥ (1 : ℚ) / 2 - 1 / 1000000000 then 1 else 0
  sign * 2 ^ (binWidth6 integer_part + 1) + integer_part * 2 + fraction

/-- The inline temperature encoding in `set_temperature`:
`('0' if t >= 0 else '1') + f'{int(abs(t)):06b}' + ('0' if t % 1 == 0 else '1')`.
Differs from `encode_temperature_byte` in the half flag: set whenever the
fractional part is non-zero. -/
def set_temperature_byte (t : ℚ) : Nat :=
  let sign : Nat := if 0 ≤ t then 0 else 1
  let abs_temp := |t|
  let integer_part : Nat := (Int.toNat ⌊abs_temp⌋)
  let fraction : Nat := if t - ⌊t⌋ = 0 then 0 else 1
  sign * 2 ^ (binWidth6 integer_part + 1) + integer_part * 2 + fraction

/-!
## Device state and controller
-/

/-- `system_status` values: `sys_status_map` plus the `"UNKNOWN"` default. -/
inductive SystemStatus
  | STOPPED | PRE_START | RUNNING | UNKNOWN
deriving DecidableEq, Repr

/-- `compressor_status` values: `status_map` plus the `"UNKNOWN"` default. -/
inductive CompressorStatus
  | OFF | PRE_START | ON | FAULT | UNKNOWN
deriving DecidableEq, Repr

/-- `sys_status_map = {"00": STOPPED, "01": PRE_START, "02": RUNNING}` with
`.get(…, "UNKNOWN")`, keyed by the byte value. -/
def sysStatusOfCode (b : Nat) : SystemStatus :=
  if b = 0 then .STOPPED
  else if b = 1 then .PRE_START
  else if b = 2 then .RUNNING
  else .UNKNOWN

/-- `status_map = {"00": OFF, "01": PRE_START, "02": ON, "03": FAULT}` with
`.get(…, "UNKNOWN")`, keyed by the byte value. -/
def compStatusOfCode (b : Nat) : CompressorStatus :=
  if b = 0 then .OFF
  else if b = 1 then .PRE_START
  else if b = 2 then .ON
  else if b = 3 then .FAULT
  else .UNKNOWN

/-- The `self.state` dictionary.  `device_code` is stored by the source as a
hex string and modelled as the corresponding byte list (the initial
placeholder string `"N/A"` is modelled as `[]`); timestamps are rationals. -/
structure DeviceState where
  connected : Bool
  last_update_time : ℚ
  device_code : List Nat
  device_address : Nat
  post_interval : Nat
  compressor_delay : Nat
  set_point_temp : ℚ
  temp_deviation : ℚ
  current_temp : ℚ
  compressor_status : CompressorStatus
  system_status : SystemStatus
  lock_status : List Bool
deriving DecidableEq, Repr

/-- The mutable controller fields the protocol engine uses: the sequence
counter `self.frame_num`, the target address `self.device_address_hex`,
the `self.auto_compressor_enabled` flag and `self.state`. -/
structure Controller where
  frame_num : Nat
  device_address : Nat
  auto_compressor_enabled : Bool
  state : DeviceState
deriving DecidableEq, Repr

/-- `LockerController.__init__`: the state defaults. -/
def initState (device_address : Nat) : DeviceState :=
  { connected := false
    last_update_time := 0
    device_code := []
    device_address := device_address
    post_interval := 0
    compressor_delay := 0
    set_point_temp := 0
    temp_deviation := 0
    current_temp := 0
    compressor_status := .OFF
    system_status := .STOPPED
    lock_status := List.replicate 12 false }

/-- A freshly constructed controller: `frame_num = 0`,
`auto_compressor_enabled = False`. -/
def mkController (device_address : Nat) : Controller :=
  { frame_num := 0
    device_address := device_address
    auto_compressor_enabled := false
    state := initState device_address }

/-!
## Frame building
-/

/-- `_build_frame`: increment the sequence counter (`(n % 255) + 1`),
assemble `header ‖ length ‖ sequence ‖ address ‖ function ‖ data`, append the
swapped CRC of the core part and the trailer.  Returns the frame and the
controller with the updated counter. -/
def build_frame (c : Controller) (length_byte function_byte : Nat)
    (data : List Nat) : List Nat × Controller :=
  let n := c.frame_num % 255 + 1
  let core_part := length_byte :: n :: c.device_address :: function_byte :: data
  (FRAME_HEADER ++ core_part ++ calculate_crc core_part ++ FRAME_END,
   { c with frame_num := n })

/-- `_build_frame_broadcast`: identical to `_build_frame` but with the fixed
broadcast address `0x7F` in place of the device address. -/
def build_frame_broadcast (c : Controller) (length_byte function_byte : Nat)
    (data : List Nat) : List Nat × Controller :=
  let n := c.frame_num % 255 + 1
  let core_part := length_byte :: n :: 0x7F :: function_byte :: data
  (FRAME_HEADER ++ core_part ++ calculate_crc core_part ++ FRAME_END,
   { c with frame_num := n })

/-!
## Public commands used by the claims
-/

/-- `set_temperature`: reject inputs outside `0 <= t <= 63` (no frame is
sent); otherwise encode the temperature inline and build one frame with
length byte 0x0B and function 0x04 carrying the single encoded byte. -/
def set_temperature (c : Controller) (temp_celsius : ℚ) :
    Option (List Nat × Controller) :=
  if 0 ≤ temp_celsius ∧ temp_celsius ≤ 63 then
    some (build_frame c 0x0B 0x04 [set_temperature_byte temp_celsius])
  else none

/-- The lock-selection fold in `open_locks`: for each 1-based index, set bit
`index - 1` when that zero-based position lies in 0–9, else ignore the
index.  Indices are Python ints, hence `Int`. -/
def lockMask (lock_indices : List Int) : Nat :=
  lock_indices.foldl
    (fun (m : Nat) (index : Int) =>
      let i : Int := index - 1
      if 0 ≤ i ∧ i ≤ 9 then m ||| (1 <<< i.toNat) else m)
    0

/-- `open_locks`: build the 16-bit mask, serialize it as two big-endian
bytes (`_int_to_hex_str(mask, 2)`), swap the two bytes
(`big_endian_hex[2:4] + big_endian_hex[0:2]`), and build one frame with
length byte 0x0C and function 0x03 carrying the swapped pair. -/
def open_locks (c : Controller) (lock_indices : List Int) :
    List Nat × Controller :=
  let control_mask := lockMask lock_indices
  let big_endian := [control_mask / 256 % 256, control_mask % 256]
  let little_endian := [big_endian.getD 1 0, big_endian.getD 0 0]
  build_frame c 0x0C 0x03 little_endian

/-!
## Telemetry parsing, auto control and the listener step
-/

/-- `_auto_manage_compressor`: read `current_temp`, `set_point_temp`,
`temp_deviation` from the state; above `set_point + deviation` send one
compressor-On frame (function 0x02, payload 0x01), below
`set_point - deviation` send one compressor-Off frame (payload 0x00),
otherwise send nothing.  Returns the controller (sequence counter possibly
advanced) and the frames written to the channel. -/
def auto_manage_compressor (c : Controller) : Controller × List (List Nat) :=
  let current := c.state.current_temp
  let set_point := c.state.set_point_temp
  let deviation := c.state.temp_deviation
  let upper_bound := set_point + deviation
  let lower_bound := set_point - deviation
  if current > upper_bound then
    ((build_frame c 0x0B 0x02 [0x01]).2, [(build_frame c 0x0B 0x02 [0x01]).1])
  else if current < lower_bound then
    ((build_frame c 0x0B 0x02 [0x00]).2, [(build_frame c 0x0B 0x02 [0x00]).1])
  else (c, [])

/-- The state update of the 44-byte telemetry branch of `_parse_frame`
(hex-string indices halved to byte indices: `data_hex[2*i:2*i+2]` is byte
`i`).  `now` is the `time.time()` timestamp. -/
def telemetryUpdate (st : DeviceState) (now : ℚ) (buf : List Nat) :
    DeviceState :=
  -- data_hex[72:76], two bytes at offsets 36–37; `if len == 4` guards the
  -- slice, the byte swap turns [b36, b37] into the integer b37*256 + b36
  let lockBytes := (buf.drop 36).take 2
  let lock_int : Nat :=
    if lockBytes.length = 2 then lockBytes.getD 1 0 * 256 + lockBytes.getD 0 0
    else 0
  { st with
    lock_status := (List.range 12).map (fun i => ((lock_int >>> i) &&& 1) == 1)
    device_code := (buf.drop 24).take 5        -- data_hex[48:58]
    system_status := sysStatusOfCode (buf.getD 29 0)     -- data_hex[58:60]
    compressor_status := compStatusOfCode (buf.getD 31 0) -- data_hex[62:64]
    current_temp := decode_temperature (buf.getD 33 0)   -- data_hex[66:68]
    set_point_temp := decode_temperature (buf.getD 32 0) -- data_hex[64:66]
    temp_deviation := (buf.getD 18 0 : ℚ)                -- data_hex[36:38]
    last_update_time := now }

/-- `_parse_frame` on an already CRC-verified buffer.  A 44-byte buffer
(88 hex chars) is the telemetry frame: update the state, then run the
auto-control loop iff `auto_compressor_enabled`, and report that the
notification callback fires (`state_updated = True`).  A 14-byte buffer
(28 hex chars) is an ACK and is ignored; any other length does nothing.
Returns the controller, the frames sent, and the callback flag. -/
def parse_frame (c : Controller) (now : ℚ) (buf : List Nat) :
    Controller × List (List Nat) × Bool :=
  if buf.length = 44 then
    let c1 : Controller := { c with state := telemetryUpdate c.state now buf }
    let (c2, sent) :=
      if c1.auto_compressor_enabled then auto_manage_compressor c1
      else (c1, [])
    (c2, sent, true)
  else
    (c, [], false)

/-- One reception step of `_listen_for_data`: a received buffer is parsed
iff it passes CRC verification; otherwise it is discarded whole (only
logged), leaving the controller untouched, sending nothing and not
invoking the callback. -/
def listen_step (c : Controller) (now : ℚ) (buf : List Nat) :
    Controller × List (List Nat) × Bool :=
  if verify_crc buf then parse_frame c now buf
  else (c, [], false)

/-!
## Sequence-number bookkeeping (both frame builders)
-/

/-- The counter update `self.frame_num = (self.frame_num % 255) + 1` shared
by `_build_frame` and `_build_frame_broadcast`. -/
def nextSeq (n : Nat) : Nat := n % 255 + 1

/-- One frame-build request: unicast (`_build_frame`) or broadcast
(`_build_frame_broadcast`), with its length byte, function byte and data. -/
inductive BuildKind
  | unicast (length_byte function_byte : Nat) (data : List Nat)
  | broadcast (length_byte function_byte : Nat) (data : List Nat)

/-- Perform one build request against the controller. -/
def doBuild (c : Controller) : BuildKind → List Nat × Controller
  | .unicast l f d => build_frame c l f d
  | .broadcast l f d => build_frame_broadcast c l f d

/-- Perform a list of build requests, collecting the frames in order. -/
def runBuilds (c : Controller) : List BuildKind → List (List Nat) × Controller
  | [] => ([], c)
  | k :: ks =>
    ((doBuild c k).1 :: (runBuilds (doBuild c k).2 ks).1,
     (runBuilds (doBuild c k).2 ks).2)

/-!
## Concrete inputs used by the witnesses

Each buffer is 44 bytes: 2 header bytes, the 38-byte core
`length ‖ sequence ‖ address ‖ function ‖ payload`, the 2 swapped CRC bytes
of that core, and the 2 trailer bytes.
-/

/-- A CRC-valid telemetry frame: deviation byte 3 (offset 18), device code
01 02 03 04 05 (offsets 24–28), system status 2 (offset 29), compressor
status 3 (offset 31), set point byte 8 (offset 32), current temperature
byte 0x0B (offset 33), lock bytes 0x21 0x00 (offsets 36–37). -/
def bufW2 : List Nat :=
  [255, 255, 0, 0, 0, 0, 0, 0, 0, 0, 0,
   0, 0, 0, 0, 0, 0, 0, 3, 0, 0, 0,
   0, 0, 1, 2, 3, 4, 5, 2, 0, 3, 8,
   11, 0, 0, 33, 0, 0, 0, 194, 76, 255, 247]

/-- A CRC-valid telemetry frame encoding deviation 2, set point 4 °C and
current temperature 7 °C (high enough to trigger compressor-On). -/
def bufW5 : List Nat :=
  [255, 255, 0, 0, 0, 0, 0, 0, 0, 0, 0,
   0, 0, 0, 0, 0, 0, 0, 2, 0, 0, 0,
   0, 0, 0, 0, 0, 0, 0, 0, 0, 0, 8,
   14, 0, 0, 0, 0, 0, 0, 226, 247, 255, 247]

/-- A CRC-valid telemetry frame whose only non-zero payload byte is the
system-status code 1 at offset 29. -/
def bufW10 : List Nat :=
  [255, 255, 0, 0, 0, 0, 0, 0, 0, 0, 0,
   0, 0, 0, 0, 0, 0, 0, 0, 0, 0, 0,
   0, 0, 0, 0, 0, 0, 0, 1, 0, 0, 0,
   0, 0, 0, 0, 0, 0, 0, 73, 216, 255, 247]

/-- A fresh controller with the auto-compressor flag switched on
(`enable_auto_compressor_control(True)` after construction). -/
def cAuto : Controller :=
  { mkController 1 with auto_compressor_enabled := true }

/-!
## Helper lemmas
-/

/-- The CRC register stays below 2^16 after any shift step. -/
theorem crcShift_lt (c : Nat) : crcShift c < 65536 := by
  unfold crcShift
  split <;> exact Nat.mod_lt _ (by norm_num)

/-- Feeding a byte leaves the register below 2^16. -/
theorem crcByteStep_lt (c b : Nat) : crcByteStep c b < 65536 := by
  unfold crcByteStep
  rw [show (8 : Nat) = 7 + 1 from rfl, Function.iterate_succ_apply']
  exact crcShift_lt _

/-- The CRC-16 value of any byte sequence is below 2^16. -/
theorem crc16_lt (data : List Nat) : crc16 data < 65536 := by
  unfold crc16
  induction data using List.reverseRecOn with
  | nil => norm_num
  | append_singleton xs x _ =>
    rw [List.foldl_append, List.foldl_cons, List.foldl_nil]
    exact crcByteStep_lt _ _

/-- The swapped CRC always occupies exactly two bytes. -/
theorem calculate_crc_length (data : List Nat) :
    (calculate_crc data).length = 2 := rfl

/-- The low-order-bit test used by the lock-status decode agrees with
`Nat.testBit`. -/
theorem lockBit_eq_testBit (n i : Nat) :
    ((n >>> i) &&& 1 == 1) = n.testBit i := by
  simp only [Nat.testBit, Nat.and_one_is_mod, Nat.one_and_eq_mod_two]
  have h : n >>> i % 2 = 0 ∨ n >>> i % 2 = 1 := by omega
  rcases h with h | h <;> simp [h]

set_option maxRecDepth 100000

/-- Validation of the CRC embedding: the CRC-16/XMODEM check value of the
ASCII string "123456789" is 0x31C3. -/
theorem crc16_check_value :
    crc16 [0x31, 0x32, 0x33, 0x34, 0x35, 0x36, 0x37, 0x38, 0x39] = 0x31C3 := by
  decide

/-- Both frame builders read and emit the same sequence byte and store it
back into the counter. -/
theorem doBuild_seq (c : Controller) (k : BuildKind) :
    (doBuild c k).1.getD 3 0 = nextSeq c.frame_num ∧
    (doBuild c k).2.frame_num = nextSeq c.frame_num := by
  cases k <;>
    simp [doBuild, build_frame, build_frame_broadcast, nextSeq, FRAME_HEADER]

/-- The sequence byte of the i-th frame of a build run is the (i+1)-fold
counter update of the starting counter. -/
theorem runBuilds_seq_aux : ∀ (ks : List BuildKind) (c : Controller) (i : Nat),
    i < ks.length →
    ((runBuilds c ks).1.getD i []).getD 3 0 = nextSeq^[i + 1] c.frame_num := by
  intro ks
  induction ks with
  | nil => intro c i h; simp at h
  | cons k ks ih =>
    intro c i h
    cases i with
    | zero =>
      simpa [runBuilds, Function.iterate_one] using (doBuild_seq c k).1
    | succ i =>
      have h' : i < ks.length := by simpa using h
      have hrec := ih (doBuild c k).2 i h'
      rw [(doBuild_seq c k).2] at hrec
      rw [show i + 1 + 1 = (i + 1) + 1 from rfl, Function.iterate_succ_apply]
      simpa [runBuilds] using hrec

/-- C8: the frame builders assign sequence numbers from the per-controller
counter so that, starting from a fresh controller, the i-th build in any
mix of unicast and broadcast frames carries sequence byte `i % 255 + 1`
(1, 2, …, 255 for the first 255 builds, wrapping back to 1 on the next),
and the emitted sequence byte is never 0. -/
theorem sequence_counter_spec (addr : Nat) (ks : List BuildKind) (i : Nat)
    (h : i < ks.length) :
    ((runBuilds (mkController addr) ks).1.getD i []).getD 3 0 = i % 255 + 1 ∧
    ((runBuilds (mkController addr) ks).1.getD i []).getD 3 0 ≠ 0 := by
  have hiter : ∀ k : Nat, nextSeq^[k + 1] 0 = k % 255 + 1 := by
    intro k
    induction k with
    | zero => rw [Function.iterate_one]; rfl
    | succ k ih =>
      rw [Function.iterate_succ_apply', ih]
      unfold nextSeq
      omega
  have hseq := runBuilds_seq_aux ks (mkController addr) i h
  rw [show (mkController addr).frame_num = 0 from rfl, hiter i] at hseq
  exact ⟨hseq, by rw [hseq]; omega⟩

/-- Witness for C8: in the run [unicast, broadcast], the second frame
(index 1) carries sequence byte 2. -/
theorem sequence_counter_spec_witness :
    1 < ([BuildKind.unicast 11 4 [50],
          BuildKind.broadcast 28 5 []] : List BuildKind).length ∧
    (((runBuilds (mkController 1) [BuildKind.unicast 11 4 [50],
        BuildKind.broadcast 28 5 []]).1.getD 1 []).getD 3 0 = 1 % 255 + 1 ∧
     ((runBuilds (mkController 1) [BuildKind.unicast 11 4 [50],
        BuildKind.broadcast 28 5 []]).1.getD 1 []).getD 3 0 ≠ 0) :=
  ⟨by decide, sequence_counter_spec 1 _ 1 (by decide)⟩

/-- C4: a received buffer that fails CRC verification is discarded whole:
the controller (including the device state) is unchanged, no frame is
sent, and the notification callback is not invoked. -/
theorem crc_failure_discards_buffer (c : Controller) (now : ℚ) (buf : List Nat)
    (h : verify_crc buf = false) :
    listen_step c now buf = (c, [], false) := by
  simp [listen_step, h]

/-- Witness for C4: the 7-byte buffer 01 02 03 04 05 06 07 fails CRC
verification and is discarded. -/
theorem crc_failure_discards_buffer_witness :
    verify_crc [1, 2, 3, 4, 5, 6, 7] = false ∧
    listen_step (mkController 1) 0 [1, 2, 3, 4, 5, 6, 7] =
      (mkController 1, [], false) :=
  ⟨by decide,
   crc_failure_discards_buffer (mkController 1) 0 [1, 2, 3, 4, 5, 6, 7]
     (by decide)⟩

/-- C9 (code bug): the general temperature encoder does not fail when the
truncated magnitude exceeds 63; it only prints a warning and still returns
an encoding.  At input 64 it produces the single byte 0x80 (which decodes
as -0.0, not 64), and at input -64 it produces the value 0x180, which no
longer fits in the one-byte slot the payload reserves for it. -/
theorem encode_temperature_overflow :
    encode_temperature_byte 64 = 128 ∧ encode_temperature_byte (-64) = 384 := by
  have hsize : Nat.size 64 = 7 := by
    have h1 : Nat.size 64 ≤ 7 := Nat.size_le.mpr (by norm_num)
    have h2 : 6 < Nat.size 64 := Nat.lt_size.mpr (by norm_num)
    omega
  have hfl : ⌊(64 : ℚ)⌋ = 64 := by
    rw [show (64 : ℚ) = ((64 : ℤ) : ℚ) from by norm_num, Int.floor_intCast]
  constructor
  · simp only [encode_temperature_byte, binWidth6]
    rw [show |(64 : ℚ)| = 64 from abs_of_nonneg (by norm_num), hfl]
    norm_num [hsize, show Int.toNat 64 = 64 from rfl]
  · simp only [encode_temperature_byte, binWidth6]
    rw [show |(-64 : ℚ)| = 64 from by
          rw [abs_neg]; exact abs_of_nonneg (by norm_num),
        hfl]
    norm_num [hsize, show Int.toNat 64 = 64 from rfl]

/-- Any frame assembled as `header ‖ core ‖ swapped-CRC(core) ‖ trailer`
passes CRC verification. -/
theorem verify_build (core : List Nat) :
    verify_crc (FRAME_HEADER ++ core ++ calculate_crc core ++ FRAME_END)
      = true := by
  have hlen : (FRAME_HEADER ++ core ++ calculate_crc core ++ FRAME_END).length
      = core.length + 6 := by
    simp [FRAME_HEADER, FRAME_END, calculate_crc]
  have h1 : ((FRAME_HEADER ++ core ++ calculate_crc core ++ FRAME_END).drop 2).take
      (core.length + 6 - 6) = core := by
    rw [List.append_assoc, List.append_assoc,
        List.drop_left' (show FRAME_HEADER.length = 2 from rfl),
        show core.length + 6 - 6 = core.length from by omega]
    exact List.take_left' rfl
  have h2 : ((FRAME_HEADER ++ core ++ calculate_crc core ++ FRAME_END).drop
      (core.length + 6 - 4)).take 2 = calculate_crc core := by
    rw [show FRAME_HEADER ++ core ++ calculate_crc core ++ FRAME_END
          = (FRAME_HEADER ++ core) ++ (calculate_crc core ++ FRAME_END) from by
        simp [List.append_assoc],
        show core.length + 6 - 4 = (FRAME_HEADER ++ core).length from by
        simp [FRAME_HEADER],
        List.drop_left]
    exact List.take_left' (calculate_crc_length core)
  simp only [verify_crc, hlen]
  rw [if_neg (by omega), h1, h2]
  simp

/-- C1: the CRC of every built frame is CRC-16/XMODEM computed over exactly
`length ‖ sequence ‖ address ‖ function ‖ payload`, placed on the wire with
its two result bytes swapped (low byte first), for both the unicast and the
broadcast builder; verification recomputes the CRC over the received buffer
minus the 2-byte header and the trailing 2-byte CRC plus 2-byte trailer and
accepts the buffer iff the recomputed swapped CRC equals the transmitted
CRC bytes — in particular every built frame verifies. -/
theorem crc_spec (c : Controller) (lb fb : Nat) (data : List Nat)
    (buf : List Nat) (h5 : 5 ≤ buf.length) :
    calculate_crc (lb :: (c.frame_num % 255 + 1) :: c.device_address :: fb :: data)
        = [crc16 (lb :: (c.frame_num % 255 + 1) :: c.device_address :: fb :: data) % 256,
           crc16 (lb :: (c.frame_num % 255 + 1) :: c.device_address :: fb :: data) / 256] ∧
    (build_frame c lb fb data).1
        = FRAME_HEADER
          ++ (lb :: (c.frame_num % 255 + 1) :: c.device_address :: fb :: data)
          ++ calculate_crc
            (lb :: (c.frame_num % 255 + 1) :: c.device_address :: fb :: data)
          ++ FRAME_END ∧
    (build_frame_broadcast c lb fb data).1
        = FRAME_HEADER
          ++ (lb :: (c.frame_num % 255 + 1) :: 0x7F :: fb :: data)
          ++ calculate_crc (lb :: (c.frame_num % 255 + 1) :: 0x7F :: fb :: data)
          ++ FRAME_END ∧
    (verify_crc buf = true ↔
      (buf.drop (buf.length - 4)).take 2
        = calculate_crc ((buf.drop 2).take (buf.length - 6))) ∧
    verify_crc (build_frame c lb fb data).1 = true := by
  refine ⟨rfl, rfl, rfl, ?_, verify_build _⟩
  simp only [verify_crc]
  rw [if_neg (by omega)]
  exact beq_iff_eq

/-- Witness for C1: a concrete build (sequence 1, address 2) and a concrete
6-byte received buffer. -/
theorem crc_spec_witness :
    5 ≤ ([9, 9, 9, 9, 9, 9] : List Nat).length ∧
    (calculate_crc [12, 1, 2, 3, 33, 0]
        = [crc16 [12, 1, 2, 3, 33, 0] % 256, crc16 [12, 1, 2, 3, 33, 0] / 256] ∧
     (build_frame (mkController 2) 12 3 [33, 0]).1
        = FRAME_HEADER ++ [12, 1, 2, 3, 33, 0]
          ++ calculate_crc [12, 1, 2, 3, 33, 0] ++ FRAME_END ∧
     (build_frame_broadcast (mkController 2) 12 3 [33, 0]).1
        = FRAME_HEADER ++ [12, 1, 127, 3, 33, 0]
          ++ calculate_crc [12, 1, 127, 3, 33, 0] ++ FRAME_END ∧
     (verify_crc [9, 9, 9, 9, 9, 9] = true ↔
       (([9, 9, 9, 9, 9, 9] : List Nat).drop
           (([9, 9, 9, 9, 9, 9] : List Nat).length - 4)).take 2
         = calculate_crc ((([9, 9, 9, 9, 9, 9] : List Nat).drop 2).take
             (([9, 9, 9, 9, 9, 9] : List Nat).length - 6))) ∧
     verify_crc (build_frame (mkController 2) 12 3 [33, 0]).1 = true) :=
  ⟨by decide, crc_spec (mkController 2) 12 3 [33, 0] [9, 9, 9, 9, 9, 9] (by decide)⟩

/-- C7: `set_temperature` accepts exactly the domain 0–63: outside it no
frame is produced, inside it exactly one frame is built carrying the
single-byte (value < 256) encoded temperature. -/
theorem set_temperature_spec (c : Controller) (t : ℚ) :
    ((set_temperature c t).isSome ↔ (0 ≤ t ∧ t ≤ 63)) ∧
    (0 ≤ t → t ≤ 63 →
      set_temperature c t
          = some (build_frame c 0x0B 0x04 [set_temperature_byte t]) ∧
      set_temperature_byte t < 256) := by
  constructor
  · unfold set_temperature
    split
    next h => simp [h]
    next h => simp [h]
  · intro h0 h63
    refine ⟨by simp [set_temperature, h0, h63], ?_⟩
    have habs : |t| = t := abs_of_nonneg h0
    have hfl_le : ⌊t⌋ ≤ 63 := by
      have h := Int.floor_le_floor (α := ℚ) h63
      rwa [show ⌊(63 : ℚ)⌋ = 63 from by
        rw [show (63 : ℚ) = ((63 : ℤ) : ℚ) from by norm_num, Int.floor_intCast]]
        at h
    have hip : (Int.toNat ⌊|t|⌋) ≤ 63 := by
      rw [habs]
      exact Int.toNat_le.mpr (by exact_mod_cast hfl_le)
    have hw : binWidth6 (Int.toNat ⌊|t|⌋) = 6 := by
      unfold binWidth6
      have hs : (Int.toNat ⌊|t|⌋).size ≤ 6 := Nat.size_le.mpr (by omega)
      omega
    simp only [set_temperature_byte]
    rw [if_pos h0, hw]
    have hfrac : (if t - (⌊t⌋ : ℚ) = 0 then (0 : Nat) else 1) ≤ 1 := by
      split <;> omega
    omega

/-- Witness for C7: setting 50 °C sends one frame with the encoded byte. -/
theorem set_temperature_spec_witness :
    (0 : ℚ) ≤ 50 ∧ (50 : ℚ) ≤ 63 ∧
    set_temperature (mkController 1) 50
        = some (build_frame (mkController 1) 0x0B 0x04 [set_temperature_byte 50]) ∧
    set_temperature_byte 50 < 256 :=
  ⟨by norm_num, by norm_num,
   ((set_temperature_spec (mkController 1) 50).2 (by norm_num) (by norm_num)).1,
   ((set_temperature_spec (mkController 1) 50).2 (by norm_num) (by norm_num)).2⟩

/-- Bit-level characterization of the lock-selection fold, generalized over
the accumulator: bit j ends up set iff it was set already or some index
`j + 1` with `j ≤ 9` occurs in the remaining list. -/
theorem lockMask_go (l : List Int) : ∀ (m : Nat) (j : Nat),
    ((l.foldl
        (fun (m : Nat) (index : Int) =>
          let i : Int := index - 1
          if 0 ≤ i ∧ i ≤ 9 then m ||| (1 <<< i.toNat) else m) m).testBit j
      = true)
    ↔ (m.testBit j = true ∨ (j ≤ 9 ∧ ((j : Int) + 1) ∈ l)) := by
  induction l with
  | nil => intro m j; simp
  | cons a l ih =>
    intro m j
    rw [List.foldl_cons, ih]
    simp only [List.mem_cons]
    by_cases h : (0 : Int) ≤ a - 1 ∧ a - 1 ≤ 9
    · simp only [if_pos h, Nat.one_shiftLeft, Nat.testBit_lor,
        Nat.testBit_two_pow, Bool.or_eq_true, decide_eq_true_eq]
      obtain ⟨h1, h2⟩ := h
      constructor
      · rintro ((hm | ht) | hl)
        · exact Or.inl hm
        · exact Or.inr ⟨by omega, Or.inl (by omega)⟩
        · exact Or.inr ⟨hl.1, Or.inr hl.2⟩
      · rintro (hm | ⟨hj, ha | hl⟩)
        · exact Or.inl (Or.inl hm)
        · exact Or.inl (Or.inr (by omega))
        · exact Or.inr ⟨hj, hl⟩
    · simp only [if_neg h]
      constructor
      · rintro (hm | ⟨hj, hl⟩)
        · exact Or.inl hm
        · exact Or.inr ⟨hj, Or.inr hl⟩
      · rintro (hm | ⟨hj, ha | hl⟩)
        · exact Or.inl hm
        · exact absurd ⟨by omega, by omega⟩ h
        · exact Or.inr ⟨hj, hl⟩

/-- The lock mask only ever uses bits 0–9, so it stays below 1024. -/
theorem lockMask_lt (l : List Int) : lockMask l < 1024 := by
  suffices h : ∀ (l : List Int) (m : Nat), m < 1024 →
      (l.foldl
        (fun (m : Nat) (index : Int) =>
          let i : Int := index - 1
          if 0 ≤ i ∧ i ≤ 9 then m ||| (1 <<< i.toNat) else m) m) < 1024 by
    exact h l 0 (by norm_num)
  intro l
  induction l with
  | nil => intro m hm; simpa
  | cons a l ih =>
    intro m hm
    rw [List.foldl_cons]
    apply ih
    dsimp only
    split
    next hcond =>
      have hlt : (1 : Nat) <<< (a - 1).toNat < 1024 := by
        rw [Nat.one_shiftLeft]
        calc (2 : Nat) ^ (a - 1).toNat ≤ 2 ^ 9 :=
              Nat.pow_le_pow_right (by norm_num) (by omega)
          _ < 1024 := by norm_num
      exact lt_of_lt_of_le
        (Nat.or_lt_two_pow (n := 10) (by omega) (by omega)) (by norm_num)
    next => exact hm

/-- C6: `open_locks` sets bit `index - 1` of the 16-bit mask exactly for
the 1-based indices whose zero-based position lies in 0–9 (positions 10–11
are silently dropped), serializes the mask big-endian and swaps the two
payload bytes (low byte first on the wire); in particular `[11, 12]` yields
the all-zero mask and `[1, 12]` sets only bit 0. -/
theorem open_locks_spec (c : Controller) (indices : List Int) :
    open_locks c indices
        = build_frame c 0x0C 0x03
            [lockMask indices % 256, lockMask indices / 256] ∧
    (∀ j : Nat, (lockMask indices).testBit j = true ↔
        (j ≤ 9 ∧ ((j : Int) + 1) ∈ indices)) ∧
    lockMask [11, 12] = 0 ∧ lockMask [1, 12] = 1 := by
  refine ⟨?_, ?_, by decide, by decide⟩
  · have hb := lockMask_lt indices
    simp only [open_locks, List.getD_cons_zero, List.getD_cons_succ]
    rw [Nat.mod_eq_of_lt (show lockMask indices / 256 < 256 by omega)]
  · intro j
    have h := lockMask_go indices 0 j
    simpa [lockMask, Nat.zero_testBit] using h

/-- The auto-control loop never touches the device state (it only sends
frames and advances the sequence counter). -/
theorem auto_manage_state (c : Controller) :
    (auto_manage_compressor c).1.state = c.state := by
  simp only [auto_manage_compressor, build_frame]
  split
  · rfl
  · split <;> rfl

/-- The auto-control loop never changes the device address. -/
theorem auto_manage_addr (c : Controller) :
    (auto_manage_compressor c).1.device_address = c.device_address := by
  simp only [auto_manage_compressor, build_frame]
  split
  · rfl
  · split <;> rfl

/-- The auto-control loop never changes the auto-control flag. -/
theorem auto_manage_auto (c : Controller) :
    (auto_manage_compressor c).1.auto_compressor_enabled
      = c.auto_compressor_enabled := by
  simp only [auto_manage_compressor, build_frame]
  split
  · rfl
  · split <;> rfl

/-- A CRC-valid 44-byte buffer takes the listener through the telemetry
branch: the resulting device state is exactly the telemetry update of the
previous state, and the address and auto-control flag survive. -/
theorem listen_step_ctrl (c : Controller) (now : ℚ) (buf : List Nat)
    (h44 : buf.length = 44) (hcrc : verify_crc buf = true) :
    (listen_step c now buf).1.state = telemetryUpdate c.state now buf ∧
    (listen_step c now buf).1.device_address = c.device_address ∧
    (listen_step c now buf).1.auto_compressor_enabled
      = c.auto_compressor_enabled := by
  simp only [listen_step, hcrc, if_true, parse_frame, h44]
  by_cases ha : c.auto_compressor_enabled
  · simp only [ha, if_true]
    exact ⟨auto_manage_state _, auto_manage_addr _, auto_manage_auto _⟩
  · simp [ha]

/-- A two-byte slice at offset 36 of a 44-byte buffer, written with `getD`. -/
theorem slice36_eq (buf : List Nat) (h : buf.length = 44) :
    (buf.drop 36).take 2 = [buf.getD 36 0, buf.getD 37 0] := by
  have h36 : 36 < buf.length := by omega
  have h37 : 37 < buf.length := by omega
  rw [List.getD_eq_getElem buf 0 h36, List.getD_eq_getElem buf 0 h37,
      List.drop_eq_getElem_cons h36, List.drop_eq_getElem_cons h37]
  rfl

/-- C2: on every CRC-verified 44-byte buffer the parser decodes each field
at its documented byte offset: deviation at byte 18 (raw integer), device
code from bytes 24–28, system status at byte 29 (0 stopped / 1 pre-start /
2 running / else unknown), compressor status at byte 31 (0 off / 1
pre-start / 2 on / 3 fault / else unknown), set point from the encoded
byte 32, current temperature from the encoded byte 33, and the lock
bitmask from bytes 36–37 with the two bytes swapped and bits 0–11 exposed
as the 12 lock booleans (bit i is lock i+1). -/
theorem telemetry_decode_spec (c : Controller) (now : ℚ) (buf : List Nat)
    (h44 : buf.length = 44) (hcrc : verify_crc buf = true) :
    (listen_step c now buf).1.state.temp_deviation = (buf.getD 18 0 : ℚ) ∧
    (listen_step c now buf).1.state.device_code = (buf.drop 24).take 5 ∧
    (listen_step c now buf).1.state.system_status =
      (if buf.getD 29 0 = 0 then SystemStatus.STOPPED
       else if buf.getD 29 0 = 1 then SystemStatus.PRE_START
       else if buf.getD 29 0 = 2 then SystemStatus.RUNNING
       else SystemStatus.UNKNOWN) ∧
    (listen_step c now buf).1.state.compressor_status =
      (if buf.getD 31 0 = 0 then CompressorStatus.OFF
       else if buf.getD 31 0 = 1 then CompressorStatus.PRE_START
       else if buf.getD 31 0 = 2 then CompressorStatus.ON
       else if buf.getD 31 0 = 3 then CompressorStatus.FAULT
       else CompressorStatus.UNKNOWN) ∧
    (listen_step c now buf).1.state.set_point_temp =
      decode_temperature (buf.getD 32 0) ∧
    (listen_step c now buf).1.state.current_temp =
      decode_temperature (buf.getD 33 0) ∧
    (listen_step c now buf).1.state.lock_status =
      (List.range 12).map
        (fun i => (buf.getD 37 0 * 256 + buf.getD 36 0).testBit i) := by
  rw [(listen_step_ctrl c now buf h44 hcrc).1]
  refine ⟨rfl, rfl, rfl, rfl, rfl, rfl, ?_⟩
  simp only [telemetryUpdate, slice36_eq buf h44, lockBit_eq_testBit]
  norm_num

/-- C10: a successful telemetry decode rewrites exactly the eight telemetry
fields (the new state is precisely `telemetryUpdate` of the old, which sets
lock_status, device_code, system_status, compressor_status, current_temp,
set_point_temp, temp_deviation and last_update_time), while connected,
device_address, post_interval, compressor_delay and the auto-control flag
are unchanged. -/
theorem telemetry_frame_effect (c : Controller) (now : ℚ) (buf : List Nat)
    (h44 : buf.length = 44) (hcrc : verify_crc buf = true) :
    (listen_step c now buf).1.state = telemetryUpdate c.state now buf ∧
    (listen_step c now buf).1.state.connected = c.state.connected ∧
    (listen_step c now buf).1.state.device_address = c.state.device_address ∧
    (listen_step c now buf).1.state.post_interval = c.state.post_interval ∧
    (listen_step c now buf).1.state.compressor_delay
      = c.state.compressor_delay ∧
    (listen_step c now buf).1.auto_compressor_enabled
      = c.auto_compressor_enabled := by
  obtain ⟨hstate, _, hauto⟩ := listen_step_ctrl c now buf h44 hcrc
  rw [hstate]
  exact ⟨rfl, rfl, rfl, rfl, rfl, hauto⟩

/-- C5: after a successful telemetry decode the auto-control loop runs iff
the auto flag is set; reading the just-written state, it emits exactly one
compressor-On frame (function 0x02, payload 01) above
`set_point + deviation`, exactly one compressor-Off frame (payload 00)
below `set_point - deviation`, and nothing inside the band. -/
theorem auto_control_spec (c : Controller) (now : ℚ) (buf : List Nat)
    (h44 : buf.length = 44) (hcrc : verify_crc buf = true) :
    (listen_step c now buf).1.state = telemetryUpdate c.state now buf ∧
    (listen_step c now buf).2.1 =
      (if c.auto_compressor_enabled then
        (if (telemetryUpdate c.state now buf).current_temp >
            (telemetryUpdate c.state now buf).set_point_temp +
              (telemetryUpdate c.state now buf).temp_deviation then
          [(build_frame c 0x0B 0x02 [0x01]).1]
        else if (telemetryUpdate c.state now buf).current_temp <
            (telemetryUpdate c.state now buf).set_point_temp -
              (telemetryUpdate c.state now buf).temp_deviation then
          [(build_frame c 0x0B 0x02 [0x00]).1]
        else [])
      else []) := by
  refine ⟨(listen_step_ctrl c now buf h44 hcrc).1, ?_⟩
  simp only [listen_step, hcrc, if_true, parse_frame, h44]
  by_cases ha : c.auto_compressor_enabled
  · simp only [ha, if_true, auto_manage_compressor]
    split_ifs <;> rfl
  · simp [ha]

/-- Witness for C2: decoding the concrete telemetry frame `bufW2`. -/
theorem telemetry_decode_spec_witness :
    bufW2.length = 44 ∧ verify_crc bufW2 = true ∧
    ((listen_step (mkController 1) 0 bufW2).1.state.temp_deviation
        = (bufW2.getD 18 0 : ℚ) ∧
     (listen_step (mkController 1) 0 bufW2).1.state.device_code
        = (bufW2.drop 24).take 5 ∧
     (listen_step (mkController 1) 0 bufW2).1.state.system_status =
       (if bufW2.getD 29 0 = 0 then SystemStatus.STOPPED
        else if bufW2.getD 29 0 = 1 then SystemStatus.PRE_START
        else if bufW2.getD 29 0 = 2 then SystemStatus.RUNNING
        else SystemStatus.UNKNOWN) ∧
     (listen_step (mkController 1) 0 bufW2).1.state.compressor_status =
       (if bufW2.getD 31 0 = 0 then CompressorStatus.OFF
        else if bufW2.getD 31 0 = 1 then CompressorStatus.PRE_START
        else if bufW2.getD 31 0 = 2 then CompressorStatus.ON
        else if bufW2.getD 31 0 = 3 then CompressorStatus.FAULT
        else CompressorStatus.UNKNOWN) ∧
     (listen_step (mkController 1) 0 bufW2).1.state.set_point_temp =
       decode_temperature (bufW2.getD 32 0) ∧
     (listen_step (mkController 1) 0 bufW2).1.state.current_temp =
       decode_temperature (bufW2.getD 33 0) ∧
     (listen_step (mkController 1) 0 bufW2).1.state.lock_status =
       (List.range 12).map
         (fun i => (bufW2.getD 37 0 * 256 + bufW2.getD 36 0).testBit i)) :=
  ⟨by decide, by decide,
   telemetry_decode_spec (mkController 1) 0 bufW2 (by decide) (by decide)⟩

/-- Witness for C10: the concrete telemetry frame `bufW10` rewrites only
the telemetry fields. -/
theorem telemetry_frame_effect_witness :
    bufW10.length = 44 ∧ verify_crc bufW10 = true ∧
    ((listen_step (mkController 3) 0 bufW10).1.state
        = telemetryUpdate (mkController 3).state 0 bufW10 ∧
     (listen_step (mkController 3) 0 bufW10).1.state.connected
        = (mkController 3).state.connected ∧
     (listen_step (mkController 3) 0 bufW10).1.state.device_address
        = (mkController 3).state.device_address ∧
     (listen_step (mkController 3) 0 bufW10).1.state.post_interval
        = (mkController 3).state.post_interval ∧
     (listen_step (mkController 3) 0 bufW10).1.state.compressor_delay
        = (mkController 3).state.compressor_delay ∧
     (listen_step (mkController 3) 0 bufW10).1.auto_compressor_enabled
        = (mkController 3).auto_compressor_enabled) :=
  ⟨by decide, by decide,
   telemetry_frame_effect (mkController 3) 0 bufW10 (by decide) (by decide)⟩

/-- Witness for C5: with auto control enabled, the concrete frame `bufW5`
(current 7 °C, set point 4 °C, deviation 2) provokes exactly one
compressor-On frame. -/
theorem auto_control_spec_witness :
    bufW5.length = 44 ∧ verify_crc bufW5 = true ∧
    ((listen_step cAuto 0 bufW5).1.state
        = telemetryUpdate cAuto.state 0 bufW5 ∧
     (listen_step cAuto 0 bufW5).2.1 =
       (if cAuto.auto_compressor_enabled then
         (if (telemetryUpdate cAuto.state 0 bufW5).current_temp >
             (telemetryUpdate cAuto.state 0 bufW5).set_point_temp +
               (telemetryUpdate cAuto.state 0 bufW5).temp_deviation then
           [(build_frame cAuto 0x0B 0x02 [0x01]).1]
         else if (telemetryUpdate cAuto.state 0 bufW5).current_temp <
             (telemetryUpdate cAuto.state 0 bufW5).set_point_temp -
               (telemetryUpdate cAuto.state 0 bufW5).temp_deviation then
           [(build_frame cAuto 0x0B 0x02 [0x00]).1]
         else [])
       else [])) :=
  ⟨by decide, by decide,
   auto_control_spec cAuto 0 bufW5 (by decide) (by decide)⟩

/-- Value of the general encoder on an in-range magnitude: sign bit 128 (or
0), twice the truncated magnitude, plus the half-degree flag. -/
theorem encode_val (t : ℚ) (m hf : Nat) (hm : m ≤ 63) (hhf : hf ≤ 1)
    (habs : |t| = (m : ℚ) + (hf : ℚ) / 2) :
    encode_temperature_byte t = (if t < 0 then 128 else 0) + m * 2 + hf := by
  have hw : binWidth6 m = 6 := by
    unfold binWidth6
    have hs : m.size ≤ 6 := Nat.size_le.mpr (by omega)
    omega
  have hfl0 : ⌊(m : ℚ) + (hf : ℚ) / 2⌋ = (m : ℤ) := by
    interval_cases hf
    · rw [show ((m : ℚ) + ((0 : ℕ) : ℚ) / 2) = ((m : ℤ) : ℚ) from by
          push_cast; ring, Int.floor_intCast]
    · rw [show ((m : ℚ) + ((1 : ℕ) : ℚ) / 2) = ((m : ℤ) : ℚ) + 1 / 2 from by
          push_cast; ring, Int.floor_int_add,
          show ⌊(1 / 2 : ℚ)⌋ = 0 from Int.floor_eq_iff.mpr (by norm_num)]
      omega
  simp only [encode_temperature_byte]
  rw [habs, hfl0, Int.toNat_natCast, hw]
  by_cases hc : ((m : ℚ) + (hf : ℚ) / 2) - ((m : ℤ) : ℚ)
      ≥ (1 : ℚ) / 2 - 1 / 1000000000
  · have hf1 : hf = 1 := by
      by_contra hne
      have hf0 : hf = 0 := by omega
      rw [hf0] at hc
      push_cast at hc
      linarith
    rw [if_pos hc, hf1]
    split_ifs <;> norm_num
  · have hf0 : hf = 0 := by
      by_contra hne
      have hf1 : hf = 1 := by omega
      rw [hf1] at hc
      push_cast at hc
      linarith
    rw [if_neg hc, hf0]
    split_ifs <;> norm_num

/-- Value of the decoder on a byte assembled from a sign bit, an in-range
magnitude and a half flag. -/
theorem decode_val (p : Prop) [Decidable p] (m h : Nat)
    (hm : m ≤ 63) (hh : h ≤ 1) :
    decode_temperature ((if p then 128 else 0) + m * 2 + h)
      = (if p then (-1 : ℚ) else 1) * ((m : ℚ) + (h : ℚ) / 2) := by
  by_cases hp : p
  · simp only [if_pos hp, decode_temperature]
    have hbit : (128 + m * 2 + h).testBit 7 = true := by
      rw [Nat.testBit_to_div_mod, decide_eq_true_eq,
          show (2 : Nat) ^ 7 = 128 from rfl]
      omega
    have hdiv : (128 + m * 2 + h) / 2 % 64 = m := by omega
    have hmod : (128 + m * 2 + h) % 2 = h := by omega
    rw [hbit, hdiv, hmod]
    interval_cases h <;> norm_num
  · simp only [if_neg hp, decode_temperature]
    have hbit : (0 + m * 2 + h).testBit 7 = false := by
      rw [Nat.testBit_to_div_mod, decide_eq_false_iff_not,
          show (2 : Nat) ^ 7 = 128 from rfl]
      omega
    have hdiv : (0 + m * 2 + h) / 2 % 64 = m := by omega
    have hmod : (0 + m * 2 + h) % 2 = h := by omega
    rw [hbit, hdiv, hmod]
    interval_cases h <;> norm_num

/-- C3: temperature round-trip through the general encoder — for every
encodable value (integer or exact half-degree, truncated magnitude 0–63,
either sign) decoding the encoded byte recovers the value. -/
theorem temperature_roundtrip (m : Nat) (hm : m ≤ 63) (half neg : Bool) :
    decode_temperature (encode_temperature_byte
        ((if neg then (-1 : ℚ) else 1) * ((m : ℚ) + if half then 1 / 2 else 0)))
      = (if neg then (-1 : ℚ) else 1)
          * ((m : ℚ) + if half then 1 / 2 else 0) := by
  set a : ℚ := (m : ℚ) + if half then 1 / 2 else 0 with ha_def
  set v : ℚ := (if neg then (-1 : ℚ) else 1) * a with hv_def
  have hhalf0 : (0 : ℚ) ≤ if half then (1 : ℚ) / 2 else 0 := by
    split <;> norm_num
  have ha0 : 0 ≤ a := by
    rw [ha_def]
    exact add_nonneg (Nat.cast_nonneg m) hhalf0
  have habs : |v| = a := by
    rw [hv_def]
    cases neg
    · rw [show ((if false then (-1 : ℚ) else 1)) = 1 from rfl, one_mul]
      exact abs_of_nonneg ha0
    · rw [show ((if true then (-1 : ℚ) else 1)) = -1 from rfl, neg_one_mul,
          abs_neg]
      exact abs_of_nonneg ha0
  have hform : (m : ℚ) + (((if half then 1 else 0 : Nat)) : ℚ) / 2 = a := by
    rw [ha_def]
    cases half <;> norm_num
  have henc := encode_val v m (if half then 1 else 0) hm
    (by split <;> omega) (by rw [habs, hform])
  rw [henc, decode_val (v < 0) m (if half then 1 else 0) hm
      (by split <;> omega), hform]
  by_cases haz : a = 0
  · rw [hv_def, haz]
    simp
  · have hapos : 0 < a := lt_of_le_of_ne ha0 (Ne.symm haz)
    cases neg
    · have hnneg : ¬ v < 0 := by
        rw [hv_def, show ((if false then (-1 : ℚ) else 1)) = 1 from rfl, one_mul]
        linarith
      rw [if_neg hnneg, hv_def,
          show ((if false then (-1 : ℚ) else 1)) = 1 from rfl]
    · have hvneg : v < 0 := by
        rw [hv_def, show ((if true then (-1 : ℚ) else 1)) = -1 from rfl,
            neg_one_mul]
        linarith
      rw [if_pos hvneg, hv_def,
          show ((if true then (-1 : ℚ) else 1)) = -1 from rfl]

/-- Witness for C3: the half-degree value -5.5 survives the round-trip. -/
theorem temperature_roundtrip_witness :
    5 ≤ 63 ∧
    decode_temperature (encode_temperature_byte
        ((if true then (-1 : ℚ) else 1)
          * (((5 : ℕ) : ℚ) + if true then 1 / 2 else 0)))
      = (if true then (-1 : ℚ) else 1)
          * (((5 : ℕ) : ℚ) + if true then 1 / 2 else 0) :=
  ⟨by decide, temperature_roundtrip 5 (by decide) true true⟩

end Locker
